import Mathlib

/-!
Verification of the step execution and variable-substitution engine of
api-scenario (`pkg/controller/step_ctrl.go`).

The controller file is embedded faithfully below.  Collaborators that live in
other packages of the repository (`pkg/context`, `pkg/model`, `pkg/util`) or in
external libraries (`jsonq`, `rest`, `viper`, the Go standard library) are
modelled at their boundary, following the spec's description of those
boundaries; each such definition carries a comment saying what it models.
Machine integers (`int64` durations, status codes) are modelled as `Int`;
`float64` JSON numbers are modelled by their exact rational value.
-/

namespace ApiScenario

/-- Modelled from the spec: the Variable Store (`pkg/context`, not under src) is a
process-scoped key-to-value table; `Add` inserts or overwrites (last-write-wins). -/
def Ctx := List (String × String)

/-- Key-overwriting insertion into an association list (Go map assignment). -/
def upsert : List (String × String) → String → String → List (String × String)
  | [], k, v => [(k, v)]
  | (k', v') :: t, k, v => if k' = k then (k, v) :: t else (k', v') :: upsert t k v

/-- Modelled from the spec: `context.Add` inserts or overwrites an entry. -/
def ctxAdd (c : Ctx) (k v : String) : Ctx := upsert c k v

/-- Modelled from the spec: lookup of a stored variable by name. -/
def ctxLookup (c : Ctx) (k : String) : Option String := List.lookup k c

/-- Scan for the two closing braces of a placeholder, returning the name in
front of them and the remainder of the input. -/
def findClose : List Char → Option (List Char × List Char)
  | '\x7d' :: '\x7d' :: rest => some ([], rest)
  | a :: rest => (findClose rest).map (fun p => (a :: p.1, p.2))
  | [] => none

/-- Modelled from the spec: the scanning loop of `context.Patch`.  Every
occurrence of a placeholder `\x7b\x7bname\x7d\x7d` whose name is stored is replaced by the
stored value; unresolved placeholders pass through literally; replacement text
is not rescanned.  The fuel argument bounds the recursion (one unit per
consumed character suffices). -/
def patchGo (c : Ctx) : Nat → List Char → List Char
  | 0, s => s
  | _ + 1, [] => []
  | fuel + 1, a :: rest =>
    if a == '\x7b' && rest.head? == some '\x7b' then
      match findClose rest.tail with
      | some (nm, rest') =>
        match ctxLookup c (String.mk nm) with
        | some v => v.data ++ patchGo c fuel rest'
        | none => '\x7b' :: '\x7b' :: (nm ++ '\x7d' :: '\x7d' :: patchGo c fuel rest')
      | none => '\x7b' :: '\x7b' :: patchGo c fuel rest.tail
    else a :: patchGo c fuel rest

/-- Modelled from the spec: `context.Patch` substitutes stored variable values
for placeholders in a template string. -/
def ctxPatch (c : Ctx) (s : String) : String := String.mk (patchGo c s.data.length s.data)

/-- A character list contains the two opening braces of a placeholder. -/
def hasMoustache : List Char → Bool
  | [] => false
  | a :: rest => (a == '\x7b' && rest.head? == some '\x7b') || hasMoustache rest

/-- JSON values, the generic tree decoded from a response body.  A number leaf
carries the exact rational value of the decoded `float64`. -/
inductive Jval where
  | null : Jval
  | bool (b : Bool) : Jval
  | num (q : ℚ) : Jval
  | str (s : String) : Jval
  | arr (xs : List Jval) : Jval
  | obj (fields : List (String × Jval)) : Jval

/-- Errors produced by the engine and its collaborators (Go `error` values). -/
inductive GoErr where
  | msg (s : String)
  | queryFail (key : String)
  | invalidType (typeName : String)
deriving DecidableEq

/-- Modelled from the spec: `util.JsonConvertKeyName` (`pkg/util`, not under
src) converts dotted/bracket key notation into path segments; split the
property on dots, with brackets acting as separators. -/
def splitDots : List Char → List (List Char)
  | [] => [[]]
  | '.' :: rest => [] :: splitDots rest
  | c :: rest =>
    match splitDots rest with
    | s :: ss => (c :: s) :: ss
    | [] => [[c]]

/-- Modelled from the spec: the dotted/bracket property string becomes a list
of path segments, e.g. `user.age` becomes `[user, age]`. -/
def jsonConvertKeyName (p : String) : List String :=
  let repl := p.data.foldr
    (fun ch acc =>
      match ch with
      | '[' => '.' :: acc
      | ']' => acc
      | other => other :: acc) []
  (splitDots repl).map String.mk

/-- Modelled from the spec: the external JSON-path query evaluator
(`jsonq.Interface`): descend through objects by key and through arrays by
decimal index; a missing key, a bad index or a premature leaf is an error. -/
def jqInterface : Jval → List String → Except GoErr Jval
  | v, [] => Except.ok v
  | v, k :: rest =>
    match v with
    | Jval.obj fs =>
      match List.lookup k fs with
      | some v' => jqInterface v' rest
      | none => Except.error (GoErr.queryFail k)
    | Jval.arr xs =>
      match k.toNat? with
      | some i =>
        match xs.get? i with
        | some v' => jqInterface v' rest
        | none => Except.error (GoErr.queryFail k)
      | none => Except.error (GoErr.queryFail k)
    | _ => Except.error (GoErr.queryFail k)

/-- Fuel-driven floor logarithm: `natLogF b fuel n` is the floor of the base-`b`
logarithm of `n` as long as the fuel dominates it (fuel `n` always suffices). -/
def natLogF : Nat → Nat → Nat → Nat
  | _, 0, _ => 0
  | b, fuel + 1, n => if 2 ≤ b ∧ b ≤ n then natLogF b fuel (n / b) + 1 else 0

/-- Floor of the base-`b` logarithm of a natural number. -/
def natLog (b n : Nat) : Nat := natLogF b n n

/-- Floor of the base-`b` logarithm of the positive rational `a / b'`. -/
def ratLogFloor (base a b : Nat) : Int :=
  if b ≤ a then (natLog base (a / b) : Int)
  else
    let j := natLog base (b / a)
    if a * base ^ j = b then -(j : Int) else -(j : Int) - 1

/-- Unnormalized fraction: an integer numerator paired with a positive natural
denominator.  All arithmetic on it is plain `Int` and `Nat` arithmetic, so the
whole formatting pipeline evaluates inside the kernel. -/
def Frac := Int × Nat

/-- Floor of the base-2 logarithm of the absolute value of a nonzero fraction. -/
def frLog2 (q : Frac) : Int := ratLogFloor 2 q.1.natAbs q.2

/-- Floor of the base-10 logarithm of the absolute value of a nonzero fraction. -/
def frLog10 (q : Frac) : Int := ratLogFloor 10 q.1.natAbs q.2

/-- Divide a fraction by `2 ^ e` (any integer `e`). -/
def frDivPow2 (q : Frac) (e : Int) : Frac :=
  if 0 ≤ e then (q.1, q.2 * 2 ^ e.toNat) else (q.1 * (2 ^ (-e).toNat : Nat), q.2)

/-- The fraction `m * 2 ^ e`. -/
def frOfPow2 (m : Int) (e : Int) : Frac :=
  if 0 ≤ e then (m * (2 ^ e.toNat : Nat), 1) else (m, 2 ^ (-e).toNat)

/-- The fraction `d * 10 ^ t`. -/
def frOfPow10 (d : Int) (t : Int) : Frac :=
  if 0 ≤ t then (d * (10 ^ t.toNat : Nat), 1) else (d, 10 ^ (-t).toNat)

/-- Divide a fraction by `10 ^ t` (any integer `t`). -/
def frMulPow10Inv (q : Frac) (t : Int) : Frac :=
  if 0 ≤ t then (q.1, q.2 * 10 ^ t.toNat) else (q.1 * (10 ^ (-t).toNat : Nat), q.2)

/-- Value equality of fractions, by cross multiplication. -/
def frEq (a b : Frac) : Bool := a.1 * b.2 == b.1 * a.2

/-- Value order of fractions, by cross multiplication. -/
def frLt (a b : Frac) : Bool := decide (a.1 * b.2 < b.1 * a.2)

/-- Difference of two fractions. -/
def frSub (a b : Frac) : Frac := (a.1 * b.2 - b.1 * a.2, a.2 * b.2)

/-- Floor of a fraction as an integer (`Int.fdiv` is floor division). -/
def frFloor (q : Frac) : Int := Int.fdiv q.1 q.2

/-- Round a fraction to the nearest integer, ties to even.  The fractional part
`q - n` is compared with one half by cross multiplication. -/
def rndHalfEven (q : Frac) : Int :=
  let n := frFloor q
  let r := q.1 - n * q.2
  if 2 * r < (q.2 : Int) then n
  else if (q.2 : Int) < 2 * r then n + 1
  else if n % 2 = 0 then n else n + 1

/-- Modelled from the Go standard library boundary: the exponent of the unit in
the last place of an IEEE-754 binary64 number with value near `q` (normal
numbers have a 53-bit significand, subnormals bottom out at `2 ^ (-1074)`). -/
def ulpExp (q : Frac) : Int := max (frLog2 q - 52) (-1074)

/-- Modelled from the Go standard library boundary: round a real (rational)
value to the nearest IEEE-754 binary64 value, ties to even.  Overflow to
infinity (beyond `2 ^ 1024`) is outside the model. -/
def roundF64 (q : Frac) : Frac :=
  if q.1 = 0 then (0, 1)
  else
    let e := ulpExp q
    frOfPow2 (rndHalfEven (frDivPow2 q e)) e

/-- A candidate decimal round-trips when parsing it back as a binary64 recovers
exactly the value `v`. -/
def rtOk (v c : Frac) : Bool := frEq (roundF64 c) v

/-- Candidates with `prec` significant decimal digits nearest to `v`: test the
two surrounding grid points; prefer the round-tripping one, then the closer
one, then the even digit string (models the shortest-decimal search performed
by `strconv` for `%g`). -/
def pickPrec (v : Frac) (prec : Nat) : Option (Nat × Int) :=
  let t := frLog10 v + 1 - (prec : Int)
  let lo := (frFloor (frMulPow10Inv v t)).toNat
  let cLo := rtOk v (frOfPow10 lo t)
  let cHi := rtOk v (frOfPow10 (lo + 1) t)
  if cLo && cHi then
    let dLo := frSub v (frOfPow10 lo t)
    let dHi := frSub (frOfPow10 (lo + 1) t) v
    if frLt dLo dHi then some (lo, t)
    else if frLt dHi dLo then some (lo + 1, t)
    else if lo % 2 = 0 then some (lo, t) else some (lo + 1, t)
  else if cLo then some (lo, t)
  else if cHi then some (lo + 1, t)
  else none

/-- Strip trailing zero digits, shifting them into the decimal exponent. -/
def stripZeros : Nat → Nat → Int → Nat × Int
  | 0, d, t => (d, t)
  | fuel + 1, d, t =>
    if d % 10 = 0 ∧ d ≠ 0 then stripZeros fuel (d / 10) (t + 1) else (d, t)

/-- Modelled from the Go standard library boundary: the shortest decimal
`d * 10 ^ t` (fewest significant digits, then nearest) that parses back to the
binary64 value `v > 0`; at most 17 digits are ever needed. -/
def shortestDigits (v : Frac) : Nat × Int :=
  match (List.range 17).findSome? (fun i => pickPrec v (i + 1)) with
  | some (d, t) => stripZeros 40 d t
  | none =>
    ((frFloor (frMulPow10Inv v (frLog10 v + 1 - 17))).toNat, frLog10 v + 1 - 17)

/-- A run of zero characters. -/
def zerosL (k : Nat) : List Char := List.replicate k '0'

/-- Fixed-notation rendering of the digit characters `ds` with the decimal
point after position `dpPos` (no forced precision, no trailing zeros). -/
def fmtFform (ds : List Char) (dpPos : Int) : List Char :=
  if (ds.length : Int) ≤ dpPos then ds ++ zerosL (dpPos - ds.length).toNat
  else if 1 ≤ dpPos then ds.take dpPos.toNat ++ '.' :: ds.drop dpPos.toNat
  else '0' :: '.' :: zerosL (-dpPos).toNat ++ ds

/-- Scientific-notation rendering `d.igitse±XX` with a two-digit minimum
exponent field. -/
def fmtEform (ds : List Char) (exp10 : Int) : List Char :=
  let m := match ds with
    | [] => ['0']
    | [c] => [c]
    | c :: rest => c :: '.' :: rest
  let ea := (if exp10 < 0 then -exp10 else exp10).toNat
  let ed := Nat.toDigits 10 ea
  let ed := if ea < 10 then '0' :: ed else ed
  m ++ 'e' :: (if exp10 < 0 then '-' else '+') :: ed

/-- Modelled from the Go standard library boundary: `fmt.Sprintf` with verb
`%g` on a binary64 value: shortest round-trippable digits, fixed notation
unless the decimal exponent is below -4 or at least 6. -/
def goFormatG (q : ℚ) : String :=
  if q.num = 0 then "0"
  else
    let v : Frac := ((q.num.natAbs : Int), q.den)
    let dt := shortestDigits v
    let ds := Nat.toDigits 10 dt.1
    let dpPos : Int := (ds.length : Int) + dt.2
    let exp10 := dpPos - 1
    let body := if exp10 < -4 ∨ 6 ≤ exp10 then fmtEform ds exp10 else fmtFform ds dpPos
    String.mk (if q.num < 0 then '-' :: body else body)

/-- Modelled from the Go standard library boundary: `strconv.FormatBool`. -/
def goFormatBool (b : Bool) : String := if b then "true" else "false"

/-- Modelled from the Go standard library boundary: `strconv.FormatInt` in base
10 (also `fmt.Sprintf` with `%v` on an integer). -/
def goFormatInt (n : Int) : String := toString n

example : shortestDigits (30, 1) = (3, 1) := by decide
example : goFormatG 30 = "30" := by decide
example : goFormatG 0 = "0" := by decide
example : goFormatG (Rat.divInt (-5) 2) = "-2.5" := by decide
example : goFormatG 1000000 = "1e+06" := by decide
example : goFormatG 100000 = "100000" := by decide

/-- Modelled from the Go standard library boundary: `time.Duration.Round`
rounds a duration (int64 nanoseconds, here `Int`) to the nearest multiple of
`m`, half away from zero; the int64 overflow clamps near the 292-year mark are
outside the model.  `Int.tmod` is Go's truncated `%`. -/
def durationRound (d m : Int) : Int :=
  if m ≤ 0 then d
  else
    let r := Int.tmod d m
    if d < 0 then
      if -r + -r < m then d + -r else d - m + -r
    else
      if r + r < m then d - r else d + m - r

/-- Modelled from the spec: variable sources (`model.Source`, not under src). -/
inductive Source where
  | responseTime
  | responseStatus
  | responseHeader
  | responseJson
deriving DecidableEq

/-- Modelled from the spec: a variable-extraction declaration (`model.Variable`,
not under src): name, property (header name or JSON path), source. -/
structure Variable where
  name : String
  property : String
  source : Source

/-- Modelled from the spec: assertion declarations are opaque data to the step
engine (`model.Assertion`, not under src); only their identity matters here. -/
structure Assertion where
  raw : String

/-- Modelled from the spec: the assertion collaborator's pass/fail result with
a message (`model.ResultAssertion`, not under src). -/
structure ResultAssertion where
  success : Bool := true
  message : String := ""

/-- Modelled from the spec: provenance marker of a result variable
(`model.Created` for extraction, `model.Used` for substitution). -/
inductive RVType where
  | created
  | used
deriving DecidableEq

/-- Modelled from the spec: a provenance record (`model.ResultVariable`, not
under src).  Go zero values: empty `newValue`, nil `err`. -/
structure ResultVariable where
  key : String := ""
  newValue : String := ""
  err : Option GoErr := none
  rtype : RVType := RVType.created

/-- Record of a successfully extracted or patched value. -/
def createdVal (k v : String) : ResultVariable :=
  { key := k, newValue := v, err := none, rtype := RVType.created }

/-- Record carrying a per-variable extraction error. -/
def createdErr (k : String) (e : GoErr) : ResultVariable :=
  { key := k, newValue := "", err := some e, rtype := RVType.created }

/-- Modelled from the spec: the concrete request assembled by the request
builder (`rest.Request` of the external transport library). -/
structure Request where
  method : String := ""
  headers : List (String × String) := []
  queryParams : List (String × String) := []
  body : String := ""
  baseURL : String := ""

/-- Modelled from the spec: the raw transport response (`rest.Response` of the
external transport library); the body field carries the decoded JSON tree, or
`none` when the body does not parse. -/
structure RestResponse where
  statusCode : Int := 0
  header : List (String × List String) := []
  body : Option Jval := none

/-- Modelled from the spec: the parsed response consumed by assertions and
extraction (`model.Response`, not under src): status code, header map, JSON
body tree, elapsed time in nanoseconds. -/
structure Response where
  statusCode : Int := 0
  header : List (String × List String) := []
  body : Jval := Jval.null
  timeElapsed : Int := 0

/-- Modelled from the spec: `model.NewResponse` (not under src) builds the
parsed response from the transport response and the measured elapsed time; an
unparseable body is an error. -/
def newResponse (r : RestResponse) (elapsed : Int) : Except GoErr Response :=
  match r.body with
  | some j =>
    Except.ok { statusCode := r.statusCode, header := r.header, body := j, timeElapsed := elapsed }
  | none => Except.error (GoErr.msg "invalid response body")

/-- Modelled from the spec: step kinds (`model.StepType`, not under src); all
kinds are validated upstream, so only the two valid ones are modelled. -/
inductive StepType where
  | pause
  | requestStep
deriving DecidableEq

/-- Modelled from the spec: a declared step (`model.Step`, not under src). -/
structure Step where
  stepType : StepType
  duration : Nat := 0
  method : String := ""
  url : String := ""
  headers : List (String × List String) := []
  body : String := ""
  assertions : List Assertion := []
  vars : List Variable := []

/-- The per-step result assembled by the engine (`model.ResultStep`); Go zero
values of the struct fields are modelled by `none` and `[]`. -/
structure ResultStep where
  stepType : Option StepType := none
  request : Option Request := none
  variableApplied : List ResultVariable := []
  stepTime : Int := 0
  response : Option Response := none
  assertion : List ResultAssertion := []
  variableCreated : List ResultVariable := []

/-- External collaborators of the step controller, as the spec specifies them
at the boundary: the URL-decomposition routine (`step.ExtractUrl`), the
configured override headers (`viper`), the transport client (`Send`), the
assertion collaborator (`Assert`) and the measured wall time of the send. -/
structure Env where
  extractUrl : String → Except GoErr (String × List (String × String))
  overrideHeaders : List (String × String) := []
  send : Request → Except GoErr RestResponse
  assertFn : Assertion → Response → ResultAssertion
  sendElapsed : Int := 0

/-- Ghost trace of the observable calls a step run performs, in order: the
transport send, each assertion call, each variable-store write. -/
inductive Event where
  | sendCalled (req : Request)
  | assertCalled (a : Assertion)
  | varAdded (key value : String)

/-- Output of the extraction phase: the updated store, the provenance records,
and the trace of store writes. -/
structure ExtractOut where
  ctx : Ctx
  recs : List ResultVariable
  evs : List Event

/-- Output of running one step: the assembled result, the propagated error if
any, the final store, and the ghost trace. -/
structure RunOut where
  result : ResultStep
  err : Option GoErr
  ctx : Ctx
  trace : List Event

/-- Modelled from the Go standard library boundary: the type name rendered by
`reflect.TypeOf` in the invalid-type error message; a JSON `null` leaf and a
failed query both reach the switch as a nil interface. -/
def goTypeName : Option Jval → String
  | none => "<nil>"
  | some Jval.null => "<nil>"
  | some (Jval.obj _) => "map[string]interface"
  | some (Jval.arr _) => "[]interface"
  | some _ => "other"

/-- Embeds `patch` of `step_ctrl.go`: apply the store's substitution to
`initial` and append one `Used` record exactly when the string changed. -/
def patch (c : Ctx) (initial name : String) (vars : List ResultVariable) :
    String × List ResultVariable :=
  let patchedValue := ctxPatch c initial
  if initial = patchedValue then (patchedValue, vars)
  else
    (patchedValue,
      vars ++ [{ key := name, newValue := patchedValue, err := none, rtype := RVType.used }])

/-- Patch every value of a key-value list, naming each field `pre ++ key ++
suf` (the loops over query parameters and headers in
`convertAndPatchToHttpRequest`; Go map iteration order is modelled as list
order). -/
def patchPairs (c : Ctx) (pre suf : String) :
    List (String × String) → List ResultVariable →
      List (String × String) × List ResultVariable
  | [], acc => ([], acc)
  | (k, v) :: rest, acc =>
    let pv := patch c v (pre ++ k ++ suf) acc
    let pr := patchPairs c pre suf rest pv.2
    ((k, pv.1) :: pr.1, pr.2)

/-- Embeds the header flattening of `convertAndPatchToHttpRequest`: keep the
first value of each declared header, skip empty value lists. -/
def flattenHeaders : List (String × List String) → List (String × String)
  | [] => []
  | (k, vs) :: rest =>
    match vs with
    | v :: _ => (k, v) :: flattenHeaders rest
    | [] => flattenHeaders rest

/-- Embeds the header merge of `convertAndPatchToHttpRequest`: override headers
from the configuration are patched through the store and overwrite step
headers of the same name. -/
def mergedHeaders (c : Ctx) (env : Env) (step : Step) : List (String × String) :=
  (env.overrideHeaders.map (fun kv => (kv.1, ctxPatch c kv.2))).foldl
    (fun hs kv => upsert hs kv.1 kv.2) (flattenHeaders step.headers)

/-- Embeds `convertAndPatchToHttpRequest` of `step_ctrl.go`. -/
def convertAndPatchToHttpRequest (c : Ctx) (env : Env) (step : Step) :
    Except GoErr (Request × List ResultVariable) :=
  match env.extractUrl step.url with
  | Except.error e => Except.error e
  | Except.ok (baseUrl, queryParams) =>
    let headers := mergedHeaders c env step
    let bp := patch c step.body "body" []
    let up := patch c baseUrl "URL" bp.2
    let qp := patchPairs c "params[" "]" queryParams up.2
    let hp := patchPairs c "headers." "" headers qp.2
    Except.ok
      ({ method := step.method, headers := hp.1, queryParams := qp.1,
         body := bp.1, baseURL := up.1 }, hp.2)

/-- Embeds the loop body of `attachVariablesToContext` of `step_ctrl.go` for a
single declaration: dispatch on the source, store the rendered value, and
append the provenance records exactly as the Go code does (including the
fall-through of the type switch after a failed JSON query). -/
def extractVar (c : Ctx) (response : Response) (v : Variable) : ExtractOut :=
  if v.name.length = 0 then ⟨c, [], []⟩
  else
    match v.source with
    | Source.responseTime =>
      let value := goFormatInt (Int.tdiv (durationRound response.timeElapsed 1000000) 1000000)
      ⟨ctxAdd c v.name value, [createdVal v.name value], [Event.varAdded v.name value]⟩
    | Source.responseStatus =>
      let value := goFormatInt response.statusCode
      ⟨ctxAdd c v.name value, [createdVal v.name value], [Event.varAdded v.name value]⟩
    | Source.responseHeader =>
      match List.lookup v.property response.header with
      | some (h :: _) =>
        ⟨ctxAdd c v.name h, [createdVal v.name h], [Event.varAdded v.name h]⟩
      | some [] => ⟨c, [], []⟩
      | none => ⟨c, [], []⟩
    | Source.responseJson =>
      let jqPath := jsonConvertKeyName v.property
      let qres := jqInterface response.body jqPath
      let errRecs : List ResultVariable :=
        match qres with
        | Except.error e => [createdErr v.name e]
        | Except.ok _ => []
      let extractedKey : Option Jval :=
        match qres with
        | Except.error _ => none
        | Except.ok j => some j
      match extractedKey with
      | some (Jval.str s) =>
        ⟨ctxAdd c v.name s, errRecs ++ [createdVal v.name s], [Event.varAdded v.name s]⟩
      | some (Jval.bool b) =>
        let castValue := goFormatBool b
        ⟨ctxAdd c v.name castValue, errRecs ++ [createdVal v.name castValue],
          [Event.varAdded v.name castValue]⟩
      | some (Jval.num f) =>
        let castValue := goFormatG f
        ⟨ctxAdd c v.name castValue, errRecs ++ [createdVal v.name castValue],
          [Event.varAdded v.name castValue]⟩
      | other =>
        ⟨c, errRecs ++ [createdErr v.name (GoErr.invalidType (goTypeName other))], []⟩

/-- Embeds `attachVariablesToContext` of `step_ctrl.go`: fold the loop body
over the declared variables, threading the store. -/
def attachVariablesToContext (c : Ctx) (response : Response) :
    List Variable → ExtractOut
  | [] => ⟨c, [], []⟩
  | v :: rest =>
    let e1 := extractVar c response v
    let e2 := attachVariablesToContext e1.ctx response rest
    ⟨e2.ctx, e1.recs ++ e2.recs, e1.evs ++ e2.evs⟩

/-- Embeds `assertResponse` of `step_ctrl.go`: call the assertion collaborator
once per declared assertion, in declaration order, collecting results as-is
(paired with the ghost trace of the calls). -/
def assertResponse (env : Env) (response : Response) :
    List Assertion → List ResultAssertion × List Event
  | [] => ([], [])
  | a :: rest =>
    let r := env.assertFn a response
    let pr := assertResponse env response rest
    (r :: pr.1, Event.assertCalled a :: pr.2)

/-- Embeds `request` of `step_ctrl.go`: build and patch the request, send it,
parse the response, assert it, extract variables, and assemble the result;
each failure point returns exactly what the Go code returns. -/
def request (env : Env) (step : Step) (c : Ctx) : RunOut :=
  match convertAndPatchToHttpRequest c env step with
  | Except.error _ =>
    { result := {}, err := some (GoErr.msg "impossible to convert the request"),
      ctx := c, trace := [] }
  | Except.ok (req, reqVars) =>
    let result : ResultStep :=
      { stepType := some StepType.requestStep, request := some req,
        variableApplied := reqVars }
    match env.send req with
    | Except.error e =>
      { result := { result with stepTime := env.sendElapsed }, err := some e,
        ctx := c, trace := [Event.sendCalled req] }
    | Except.ok res =>
      match newResponse res env.sendElapsed with
      | Except.error e =>
        { result := { result with stepTime := env.sendElapsed }, err := some e,
          ctx := c, trace := [Event.sendCalled req] }
      | Except.ok response =>
        let ar := assertResponse env response step.assertions
        let ex := attachVariablesToContext c response step.vars
        let finalResult : ResultStep :=
          { result with
            stepTime := env.sendElapsed
            response := some response
            assertion := ar.1
            variableCreated := ex.recs }
        { result := finalResult, err := none, ctx := ex.ctx,
          trace := Event.sendCalled req :: ar.2 ++ ex.evs }

/-- Embeds `Run` of `step_ctrl.go`: dispatch on the step kind.  The pause path
blocks for the declared duration and returns timing only (the sleep is modelled
as exact). -/
def Run (env : Env) (step : Step) (c : Ctx) : RunOut :=
  match step.stepType with
  | StepType.pause =>
    { result :=
        { stepType := some StepType.pause,
          stepTime := (step.duration : Int) * 1000000000 },
      err := none, ctx := c, trace := [] }
  | StepType.requestStep => request env step c

/-- A `Used` provenance record, as `patch` appends it. -/
def usedRec (k v : String) : ResultVariable :=
  { key := k, newValue := v, err := none, rtype := RVType.used }

/-- The records one patched field contributes: none when patching leaves the
value unchanged, one `Used` record tagged `name` otherwise. -/
def usedRecIf (c : Ctx) (name v0 : String) : List ResultVariable :=
  if v0 = ctxPatch c v0 then [] else [usedRec name (ctxPatch c v0)]

/-- Concrete store for witnesses: one variable `name` holding `v`. -/
def ctxW : Ctx := [("name", "v")]

/-- Concrete JSON body for witnesses: `\x7b"user":\x7b"age":30.0,"nm":"bob"\x7d\x7d`. -/
def bodyJsonW : Jval :=
  Jval.obj [("user", Jval.obj [("age", Jval.num 30), ("nm", Jval.str "bob")])]

/-- Concrete transport response for witnesses. -/
def restOkW : RestResponse :=
  { statusCode := 200, header := [("X-Req-Id", ["abc"])], body := some bodyJsonW }

/-- Concrete environment for witnesses: the URL decomposes into itself plus two
query parameters, one override header is configured, the transport succeeds,
assertions all pass, and the send is measured at 123.6 ms. -/
def envOkW : Env :=
  { extractUrl := fun u => Except.ok (u, [("q", "\x7b\x7bname\x7d\x7d"), ("r", "static")])
    overrideHeaders := [("auth", "t\x7b\x7bname\x7d\x7d")]
    send := fun _ => Except.ok restOkW
    assertFn := fun a _ => { success := true, message := a.raw }
    sendElapsed := 123600000 }

/-- Same environment with a failing transport. -/
def envFailSendW : Env := { envOkW with send := fun _ => Except.error (GoErr.msg "dial fail") }

/-- Same environment with an undecomposable URL template. -/
def envBadUrlW : Env :=
  { envOkW with extractUrl := fun _ => Except.error (GoErr.msg "parse url fail") }

/-- Concrete request step for witnesses: templated body, URL and header, two
assertions, one header-extraction declaration. -/
def stepW : Step :=
  { stepType := StepType.requestStep
    method := "GET"
    url := "http://x/\x7b\x7bname\x7d\x7d"
    headers := [("h1", ["a\x7b\x7bname\x7d\x7d", "zz"])]
    body := "b=\x7b\x7bname\x7d\x7d"
    assertions := [{ raw := "a1" }, { raw := "a2" }]
    vars := [{ name := "rid", property := "X-Req-Id", source := Source.responseHeader }] }

/-- The request `stepW` builds under `ctxW` and `envOkW`. -/
def reqW : Request :=
  { method := "GET"
    headers := [("h1", "av"), ("auth", "tv")]
    queryParams := [("q", "v"), ("r", "static")]
    body := "b=v"
    baseURL := "http://x/v" }

/-- The patch provenance records `stepW` produces under `ctxW` and `envOkW`. -/
def varsW : List ResultVariable :=
  [usedRec "body" "b=v", usedRec "URL" "http://x/v", usedRec "params[q]" "v",
    usedRec "headers.h1" "av"]

/-- The parsed response the witness run obtains. -/
def respW : Response :=
  { statusCode := 200, header := [("X-Req-Id", ["abc"])], body := bodyJsonW,
    timeElapsed := 123600000 }

/-- Concrete response whose JSON body holds `user.age = 30.0`. -/
def respAgeW : Response := { statusCode := 200, header := [], body := bodyJsonW, timeElapsed := 0 }

/-- Concrete response with an empty JSON object body. -/
def respC1W : Response := { statusCode := 200, header := [], body := Jval.obj [], timeElapsed := 0 }

/-- Concrete response carrying only a header. -/
def respHW : Response :=
  { statusCode := 200, header := [("X-Req-Id", ["abc"])], body := Jval.null, timeElapsed := 0 }

/-- Concrete response whose elapsed time is 123.6 ms (123600000 ns). -/
def respTW : Response := { statusCode := 404, header := [], body := Jval.null, timeElapsed := 123600000 }

example : ctxPatch ctxW "b=\x7b\x7bname\x7d\x7d" = "b=v" := by rfl
example : convertAndPatchToHttpRequest ctxW envOkW stepW = Except.ok (reqW, varsW) := by rfl
example :
    extractVar [] respC1W { name := "x", property := "missing", source := Source.responseJson } =
      ⟨[], [createdErr "x" (GoErr.queryFail "missing"),
        createdErr "x" (GoErr.invalidType "<nil>")], []⟩ := by rfl
example :
    extractVar [] respAgeW { name := "age", property := "user.age", source := Source.responseJson } =
      ⟨[("age", "30")], [createdVal "age" "30"], [Event.varAdded "age" "30"]⟩ := by rfl
example :
    extractVar [] respTW { name := "t", property := "", source := Source.responseTime } =
      ⟨[("t", "124")], [createdVal "t" "124"], [Event.varAdded "t" "124"]⟩ := by rfl
example :
    extractVar [] respHW { name := "rid", property := "X-Req-Id", source := Source.responseHeader } =
      ⟨[("rid", "abc")], [createdVal "rid" "abc"], [Event.varAdded "rid" "abc"]⟩ := by rfl
example :
    Run envFailSendW stepW ctxW =
      ⟨{ stepType := some StepType.requestStep, request := some reqW,
          variableApplied := varsW, stepTime := 123600000 },
        some (GoErr.msg "dial fail"), ctxW, [Event.sendCalled reqW]⟩ := by rfl
example :
    Run envOkW stepW ctxW =
      ⟨{ stepType := some StepType.requestStep, request := some reqW,
          variableApplied := varsW, stepTime := 123600000, response := some respW,
          assertion := [{ success := true, message := "a1" }, { success := true, message := "a2" }],
          variableCreated := [createdVal "rid" "abc"] },
        none, [("name", "v"), ("rid", "abc")],
        [Event.sendCalled reqW, Event.assertCalled { raw := "a1" },
          Event.assertCalled { raw := "a2" }, Event.varAdded "rid" "abc"]⟩ := by rfl
example :
    Run envBadUrlW stepW ctxW =
      ⟨{}, some (GoErr.msg "impossible to convert the request"), ctxW, []⟩ := by rfl

theorem patchGo_nil (c : Ctx) (fuel : Nat) : patchGo c fuel [] = [] := by
  cases fuel <;> rfl

theorem patchGo_no_moustache (c : Ctx) :
    ∀ fuel cs, hasMoustache cs = false → patchGo c fuel cs = cs := by
  intro fuel
  induction fuel with
  | zero => intro cs _; rfl
  | succ f ih =>
    intro cs h
    cases cs with
    | nil => rfl
    | cons a rest =>
      have h' : (a == '\x7b' && rest.head? == some '\x7b') = false ∧
          hasMoustache rest = false := by
        simpa [hasMoustache] using h
      simp [patchGo, h'.1, ih rest h'.2]

theorem ctxPatch_no_moustache (c : Ctx) (s : String) (h : hasMoustache s.data = false) :
    ctxPatch c s = s := by
  unfold ctxPatch
  rw [patchGo_no_moustache c _ _ h]

theorem patch_spec (c : Ctx) (v0 name : String) (acc : List ResultVariable) :
    patch c v0 name acc = (ctxPatch c v0, acc ++ usedRecIf c name v0) := by
  simp only [patch, usedRecIf, usedRec]
  by_cases h : v0 = ctxPatch c v0
  · rw [if_pos h, if_pos h]
    simp
  · rw [if_neg h, if_neg h]

theorem patchPairs_spec (c : Ctx) (pre suf : String) :
    ∀ (l : List (String × String)) (acc : List ResultVariable),
      patchPairs c pre suf l acc =
        (l.map (fun kv => (kv.1, ctxPatch c kv.2)),
          acc ++ l.flatMap (fun kv => usedRecIf c (pre ++ kv.1 ++ suf) kv.2)) := by
  intro l
  induction l with
  | nil => intro acc; simp [patchPairs]
  | cons kv rest ih =>
    intro acc
    obtain ⟨k, v⟩ := kv
    rw [patchPairs, patch_spec, ih, List.flatMap_cons, List.map_cons]
    simp [List.append_assoc]

theorem usedRecIf_length (c : Ctx) (n v : String) :
    (usedRecIf c n v).length = if v = ctxPatch c v then 0 else 1 := by
  unfold usedRecIf
  split <;> rfl

theorem bind_usedRecIf_length (c : Ctx) (f : String × String → String) :
    ∀ l : List (String × String),
      (l.flatMap (fun kv => usedRecIf c (f kv) kv.2)).length =
        l.countP (fun kv => decide (kv.2 ≠ ctxPatch c kv.2)) := by
  intro l
  induction l with
  | nil => rfl
  | cons kv rest ih =>
    rw [List.flatMap_cons, List.length_append, ih, List.countP_cons, usedRecIf_length]
    by_cases h : kv.2 = ctxPatch c kv.2
    · rw [if_pos h, decide_eq_false (fun hne => hne h)]
      simp
    · rw [if_neg h, decide_eq_true h]
      simp [Nat.add_comm]

theorem assertResponse_spec (env : Env) (resp : Response) :
    ∀ l, assertResponse env resp l =
      (l.map (fun a => env.assertFn a resp), l.map Event.assertCalled) := by
  intro l
  induction l with
  | nil => rfl
  | cons a rest ih => simp [assertResponse, ih]

theorem extractVar_evs (c : Ctx) (resp : Response) (v : Variable) :
    ∀ e ∈ (extractVar c resp v).evs, ∃ k x, e = Event.varAdded k x := by
  intro e he
  obtain ⟨nm, prop, src⟩ := v
  by_cases hnm : nm.length = 0
  · simp [extractVar, hnm] at he
  cases src with
  | responseTime =>
    simp [extractVar, hnm] at he
    exact ⟨_, _, he⟩
  | responseStatus =>
    simp [extractVar, hnm] at he
    exact ⟨_, _, he⟩
  | responseHeader =>
    rcases hl : List.lookup prop resp.header with _ | vs
    · simp [extractVar, hnm, hl] at he
    · cases vs with
      | nil => simp [extractVar, hnm, hl] at he
      | cons hv tl =>
        simp [extractVar, hnm, hl] at he
        exact ⟨_, _, he⟩
  | responseJson =>
    rcases hq : jqInterface resp.body (jsonConvertKeyName prop) with e' | j
    · simp [extractVar, hnm, hq] at he
    · cases j <;> simp [extractVar, hnm, hq] at he <;> exact ⟨_, _, he⟩

theorem attachVariables_evs (resp : Response) :
    ∀ (l : List Variable) (c : Ctx),
      ∀ e ∈ (attachVariablesToContext c resp l).evs, ∃ k x, e = Event.varAdded k x := by
  intro l
  induction l with
  | nil => intro c e he; simp [attachVariablesToContext] at he
  | cons v rest ih =>
    intro c e he
    simp only [attachVariablesToContext, List.mem_append] at he
    rcases he with he | he
    · exact extractVar_evs _ _ _ e he
    · exact ih _ e he

/-- C3: when the transport `Send` fails, `Run` returns a `ResultStep` that
carries the attempted request and the applied patches, but no response, no
assertion outcomes and no created-variable records; the Variable Store is left
unchanged and the transport error is surfaced to the caller. -/
theorem claim_C3_transport_failure_partial_result :
    ∀ (c : Ctx) (env : Env) (step : Step) (req : Request)
      (vars : List ResultVariable) (e : GoErr),
      step.stepType = StepType.requestStep →
      convertAndPatchToHttpRequest c env step = Except.ok (req, vars) →
      env.send req = Except.error e →
      Run env step c =
        ⟨{ stepType := some StepType.requestStep, request := some req,
            variableApplied := vars, stepTime := env.sendElapsed,
            response := none, assertion := [], variableCreated := [] },
          some e, c, [Event.sendCalled req]⟩ := by
  intro c env step req vars e hst hconv hsend
  simp [Run, hst, request, hconv, hsend]

theorem claim_C3_transport_failure_partial_result_inst :
    Run envFailSendW stepW ctxW =
      ⟨{ stepType := some StepType.requestStep, request := some reqW,
          variableApplied := varsW, stepTime := envFailSendW.sendElapsed,
          response := none, assertion := [], variableCreated := [] },
        some (GoErr.msg "dial fail"), ctxW, [Event.sendCalled reqW]⟩ :=
  claim_C3_transport_failure_partial_result ctxW envFailSendW stepW reqW varsW
    (GoErr.msg "dial fail") rfl rfl rfl

/-- C10: when the transport `Send` fails, the returned `ResultStep` still has
its `StepTime` field populated with the elapsed wall time of the failed send
attempt (timing is recorded before the error check), while the response,
assertion and created-variable fields remain empty. -/
theorem claim_C10_steptime_on_transport_failure :
    ∀ (c : Ctx) (env : Env) (step : Step) (req : Request)
      (vars : List ResultVariable) (e : GoErr),
      step.stepType = StepType.requestStep →
      convertAndPatchToHttpRequest c env step = Except.ok (req, vars) →
      env.send req = Except.error e →
      (Run env step c).result.stepTime = env.sendElapsed ∧
      (Run env step c).result.response = none ∧
      (Run env step c).result.assertion = [] ∧
      (Run env step c).result.variableCreated = [] ∧
      (Run env step c).err = some e := by
  intro c env step req vars e hst hconv hsend
  simp [Run, hst, request, hconv, hsend]

theorem claim_C10_steptime_on_transport_failure_inst :
    (Run envFailSendW stepW ctxW).result.stepTime = envFailSendW.sendElapsed ∧
    (Run envFailSendW stepW ctxW).result.response = none ∧
    (Run envFailSendW stepW ctxW).result.assertion = [] ∧
    (Run envFailSendW stepW ctxW).result.variableCreated = [] ∧
    (Run envFailSendW stepW ctxW).err = some (GoErr.msg "dial fail") :=
  claim_C10_steptime_on_transport_failure ctxW envFailSendW stepW reqW varsW
    (GoErr.msg "dial fail") rfl rfl rfl

/-- C6: when the URL template cannot be decomposed, the transport client is
never invoked (the trace has no send event, and the run output does not depend
on the send function at all), and `Run` returns the request-build error
immediately with no assertion evaluation and no extraction: the result is
empty and the store unchanged. -/
theorem claim_C6_build_failure_no_send :
    ∀ (c : Ctx) (env : Env) (step : Step) (e : GoErr),
      step.stepType = StepType.requestStep →
      env.extractUrl step.url = Except.error e →
      Run env step c = ⟨{}, some (GoErr.msg "impossible to convert the request"), c, []⟩ ∧
      (∀ r, Event.sendCalled r ∉ (Run env step c).trace) ∧
      (∀ sendF, Run { env with send := sendF } step c = Run env step c) := by
  intro c env step e hst hurl
  have hce : convertAndPatchToHttpRequest c env step = Except.error e := by
    simp [convertAndPatchToHttpRequest, hurl]
  have hmain : Run env step c =
      ⟨{}, some (GoErr.msg "impossible to convert the request"), c, []⟩ := by
    simp [Run, hst, request, hce]
  refine ⟨hmain, ?_, ?_⟩
  · intro r
    rw [hmain]
    simp
  · intro sendF
    have hce' : convertAndPatchToHttpRequest c { env with send := sendF } step =
        Except.error e := by
      simp [convertAndPatchToHttpRequest, hurl]
    rw [hmain]
    simp [Run, hst, request, hce']

theorem claim_C6_build_failure_no_send_inst :
    Run envBadUrlW stepW ctxW =
      ⟨{}, some (GoErr.msg "impossible to convert the request"), ctxW, []⟩ ∧
    (∀ r, Event.sendCalled r ∉ (Run envBadUrlW stepW ctxW).trace) :=
  let h := claim_C6_build_failure_no_send ctxW envBadUrlW stepW
    (GoErr.msg "parse url fail") rfl rfl
  ⟨h.1, h.2.1⟩

/-- C4: for a request step that builds successfully, the `Used` records are
exactly one per templated field (body, URL, each query parameter, each merged
header) whose patched value differs from its input value, tagged with the
stable field identifier and the resulting value; their number equals the
number of changed fields, and a field with no placeholders is never recorded
because patching leaves it unchanged. -/
theorem claim_C4_patch_provenance :
    ∀ (c : Ctx) (env : Env) (step : Step) (base : String)
      (qps : List (String × String)) (req : Request) (vars : List ResultVariable),
      env.extractUrl step.url = Except.ok (base, qps) →
      convertAndPatchToHttpRequest c env step = Except.ok (req, vars) →
      vars = usedRecIf c "body" step.body ++ usedRecIf c "URL" base
          ++ qps.flatMap (fun kv => usedRecIf c ("params[" ++ kv.1 ++ "]") kv.2)
          ++ (mergedHeaders c env step).flatMap
              (fun kv => usedRecIf c ("headers." ++ kv.1) kv.2) ∧
      vars.length =
        (if step.body = ctxPatch c step.body then 0 else 1) +
        (if base = ctxPatch c base then 0 else 1) +
        qps.countP (fun kv => decide (kv.2 ≠ ctxPatch c kv.2)) +
        (mergedHeaders c env step).countP (fun kv => decide (kv.2 ≠ ctxPatch c kv.2)) ∧
      (∀ s : String, hasMoustache s.data = false → ctxPatch c s = s) := by
  intro c env step base qps req vars hurl hconv
  unfold convertAndPatchToHttpRequest at hconv
  rw [hurl] at hconv
  simp only [patch_spec, patchPairs_spec, List.nil_append, List.append_assoc,
    Except.ok.injEq, Prod.mk.injEq] at hconv
  obtain ⟨-, hvars⟩ := hconv
  subst hvars
  refine ⟨by simp [List.append_assoc], ?_, fun s hs => ctxPatch_no_moustache c s hs⟩
  simp only [List.length_append, bind_usedRecIf_length, usedRecIf_length]
  omega

theorem claim_C4_patch_provenance_inst :
    varsW.length = 4 ∧ convertAndPatchToHttpRequest ctxW envOkW stepW = Except.ok (reqW, varsW) :=
  let h := claim_C4_patch_provenance ctxW envOkW stepW "http://x/\x7b\x7bname\x7d\x7d"
    [("q", "\x7b\x7bname\x7d\x7d"), ("r", "static")] reqW varsW rfl rfl
  ⟨h.2.1.trans (by decide), rfl⟩

/-- C5 counterexample: for a step whose request build fails, the `ResultStep`
returned by `Run` is the empty zero value: it carries neither the attempted
request nor the applied patches (nor even the step kind), so the claim that
every step result carries the request attempted and the patches applied is
false at this input. -/
theorem claim_C5_build_failure_empty_result :
    (Run envBadUrlW stepW ctxW).err = some (GoErr.msg "impossible to convert the request") ∧
    (Run envBadUrlW stepW ctxW).result.request = none ∧
    (Run envBadUrlW stepW ctxW).result.variableApplied = [] ∧
    (Run envBadUrlW stepW ctxW).result = {} :=
  ⟨rfl, rfl, rfl, rfl⟩

/-- C5 (amended): a build failure aborts with the descriptive error
`impossible to convert the request` but returns an empty `ResultStep` carrying
no structure; for every step that builds successfully the result carries the
request attempted and the patches applied, plus the response when one is
obtained. -/
theorem claim_C5_trace_structure_amended :
    (∀ (c : Ctx) (env : Env) (step : Step) (e : GoErr),
        step.stepType = StepType.requestStep →
        env.extractUrl step.url = Except.error e →
        Run env step c =
          ⟨{}, some (GoErr.msg "impossible to convert the request"), c, []⟩) ∧
    (∀ (c : Ctx) (env : Env) (step : Step) (req : Request) (vars : List ResultVariable),
        step.stepType = StepType.requestStep →
        convertAndPatchToHttpRequest c env step = Except.ok (req, vars) →
        (Run env step c).result.request = some req ∧
        (Run env step c).result.variableApplied = vars ∧
        ∀ (res : RestResponse) (resp : Response),
          env.send req = Except.ok res →
          newResponse res env.sendElapsed = Except.ok resp →
          (Run env step c).result.response = some resp) := by
  constructor
  · intro c env step e hst hurl
    have hce : convertAndPatchToHttpRequest c env step = Except.error e := by
      simp [convertAndPatchToHttpRequest, hurl]
    simp [Run, hst, request, hce]
  · intro c env step req vars hst hconv
    have hreq : (Run env step c).result.request = some req := by
      rcases hs : env.send req with e' | res0
      · simp [Run, hst, request, hconv, hs]
      · rcases hn : newResponse res0 env.sendElapsed with e'' | resp0 <;>
          simp [Run, hst, request, hconv, hs, hn]
    have hvars : (Run env step c).result.variableApplied = vars := by
      rcases hs : env.send req with e' | res0
      · simp [Run, hst, request, hconv, hs]
      · rcases hn : newResponse res0 env.sendElapsed with e'' | resp0 <;>
          simp [Run, hst, request, hconv, hs, hn]
    refine ⟨hreq, hvars, ?_⟩
    intro res resp hok hnr
    simp [Run, hst, request, hconv, hok, hnr]

theorem claim_C5_trace_structure_amended_inst :
    (Run envOkW stepW ctxW).result.request = some reqW ∧
    (Run envOkW stepW ctxW).result.response = some respW := by
  have h := claim_C5_trace_structure_amended.2 ctxW envOkW stepW reqW varsW rfl rfl
  exact ⟨h.1, h.2.2 restOkW respW rfl rfl⟩

/-- C7: for a request step that obtains a response, the assertion collaborator
is called exactly once per declared assertion in declaration order, the
outcome list preserves that order, and in the trace every assertion call
precedes every variable-store write, so assertion evaluation happens before
extraction. -/
theorem claim_C7_assert_before_extract_order :
    ∀ (c : Ctx) (env : Env) (step : Step) (req : Request)
      (vars : List ResultVariable) (res : RestResponse) (resp : Response),
      step.stepType = StepType.requestStep →
      convertAndPatchToHttpRequest c env step = Except.ok (req, vars) →
      env.send req = Except.ok res →
      newResponse res env.sendElapsed = Except.ok resp →
      (Run env step c).result.assertion =
        step.assertions.map (fun a => env.assertFn a resp) ∧
      ∃ tail, (Run env step c).trace =
          Event.sendCalled req :: (step.assertions.map Event.assertCalled ++ tail) ∧
        ∀ e ∈ tail, ∃ k x, e = Event.varAdded k x := by
  intro c env step req vars res resp hst hconv hsend hnr
  constructor
  · simp [Run, hst, request, hconv, hsend, hnr, assertResponse_spec]
  · refine ⟨(attachVariablesToContext c resp step.vars).evs, ?_, ?_⟩
    · simp [Run, hst, request, hconv, hsend, hnr, assertResponse_spec]
    · exact attachVariables_evs resp step.vars c

theorem claim_C7_assert_before_extract_order_inst :
    (Run envOkW stepW ctxW).result.assertion =
      stepW.assertions.map (fun a => envOkW.assertFn a respW) ∧
    (Run envOkW stepW ctxW).result.assertion =
      [{ success := true, message := "a1" }, { success := true, message := "a2" }] := by
  have h := claim_C7_assert_before_extract_order ctxW envOkW stepW reqW varsW
    restOkW respW rfl rfl rfl rfl
  exact ⟨h.1, h.1.trans (by rfl)⟩

/-- C1: on a declaration of source `ResponseJson` whose query fails, the code
stores no value but appends TWO `Created` records tagged with the variable's
name (the query-error record, then a second invalid-type record produced by
the type switch falling through on the nil interface), not exactly one as the
claim states; this run of `extractVar` on an empty object body shows both
records and the unchanged store. -/
theorem claim_C1_query_failure_two_records :
    extractVar [] respC1W { name := "x", property := "missing", source := Source.responseJson } =
      ⟨[], [createdErr "x" (GoErr.queryFail "missing"),
        createdErr "x" (GoErr.invalidType "<nil>")], []⟩ ∧
    (extractVar [] respC1W
        { name := "x", property := "missing", source := Source.responseJson }).recs.length = 2 :=
  ⟨rfl, rfl⟩

/-- C2: on a declaration of source `ResponseJson` whose query yields a
supported leaf, the stored and recorded value is the string verbatim, the
literal `true`/`false` for booleans, and the shortest round-trippable decimal
rendering for numbers; in particular `user.age = 30.0` is stored as `30`. -/
theorem claim_C2_json_supported_rendering :
    (∀ (c : Ctx) (resp : Response) (v : Variable) (s : String),
        v.name.length ≠ 0 → v.source = Source.responseJson →
        jqInterface resp.body (jsonConvertKeyName v.property) = Except.ok (Jval.str s) →
        extractVar c resp v =
          ⟨ctxAdd c v.name s, [createdVal v.name s], [Event.varAdded v.name s]⟩) ∧
    (∀ (c : Ctx) (resp : Response) (v : Variable) (b : Bool),
        v.name.length ≠ 0 → v.source = Source.responseJson →
        jqInterface resp.body (jsonConvertKeyName v.property) = Except.ok (Jval.bool b) →
        extractVar c resp v =
          ⟨ctxAdd c v.name (goFormatBool b), [createdVal v.name (goFormatBool b)],
            [Event.varAdded v.name (goFormatBool b)]⟩) ∧
    (∀ (c : Ctx) (resp : Response) (v : Variable) (q : ℚ),
        v.name.length ≠ 0 → v.source = Source.responseJson →
        jqInterface resp.body (jsonConvertKeyName v.property) = Except.ok (Jval.num q) →
        extractVar c resp v =
          ⟨ctxAdd c v.name (goFormatG q), [createdVal v.name (goFormatG q)],
            [Event.varAdded v.name (goFormatG q)]⟩) ∧
    (goFormatBool true = "true" ∧ goFormatBool false = "false") ∧
    goFormatG 30 = "30" ∧
    extractVar [] respAgeW
        { name := "age", property := "user.age", source := Source.responseJson } =
      ⟨[("age", "30")], [createdVal "age" "30"], [Event.varAdded "age" "30"]⟩ := by
  refine ⟨?_, ?_, ?_, ⟨rfl, rfl⟩, by decide, rfl⟩
  · intro c resp v s hnm hsrc hq
    obtain ⟨nm, prop, src⟩ := v
    simp only at hsrc hq hnm
    subst hsrc
    simp [extractVar, hnm, hq]
  · intro c resp v b hnm hsrc hq
    obtain ⟨nm, prop, src⟩ := v
    simp only at hsrc hq hnm
    subst hsrc
    simp [extractVar, hnm, hq]
  · intro c resp v q hnm hsrc hq
    obtain ⟨nm, prop, src⟩ := v
    simp only at hsrc hq hnm
    subst hsrc
    simp [extractVar, hnm, hq]

theorem claim_C2_json_supported_rendering_inst :
    extractVar ctxW respAgeW
        { name := "u", property := "user.nm", source := Source.responseJson } =
      ⟨ctxAdd ctxW "u" "bob", [createdVal "u" "bob"], [Event.varAdded "u" "bob"]⟩ :=
  claim_C2_json_supported_rendering.1 ctxW respAgeW
    { name := "u", property := "user.nm", source := Source.responseJson } "bob"
    (by decide) rfl rfl

/-- C8: on a declaration of source `ResponseHeader`, the stored value is the
first entry of the named header when it is present with a non-empty value
list, producing exactly one `Created` record with that value; when the header
is absent no value is stored and no record is produced. -/
theorem claim_C8_header_extraction :
    (∀ (c : Ctx) (resp : Response) (v : Variable) (h : String) (t : List String),
        v.name.length ≠ 0 → v.source = Source.responseHeader →
        List.lookup v.property resp.header = some (h :: t) →
        extractVar c resp v =
          ⟨ctxAdd c v.name h, [createdVal v.name h], [Event.varAdded v.name h]⟩) ∧
    (∀ (c : Ctx) (resp : Response) (v : Variable),
        v.name.length ≠ 0 → v.source = Source.responseHeader →
        List.lookup v.property resp.header = none →
        extractVar c resp v = ⟨c, [], []⟩) ∧
    extractVar [] respHW
        { name := "rid", property := "X-Req-Id", source := Source.responseHeader } =
      ⟨[("rid", "abc")], [createdVal "rid" "abc"], [Event.varAdded "rid" "abc"]⟩ := by
  refine ⟨?_, ?_, rfl⟩
  · intro c resp v h t hnm hsrc hl
    obtain ⟨nm, prop, src⟩ := v
    simp only at hsrc hl hnm
    subst hsrc
    simp [extractVar, hnm, hl]
  · intro c resp v hnm hsrc hl
    obtain ⟨nm, prop, src⟩ := v
    simp only at hsrc hl hnm
    subst hsrc
    simp [extractVar, hnm, hl]

theorem claim_C8_header_extraction_inst :
    extractVar [] respHW
        { name := "rid", property := "X-Req-Id", source := Source.responseHeader } =
      ⟨ctxAdd [] "rid" "abc", [createdVal "rid" "abc"], [Event.varAdded "rid" "abc"]⟩ :=
  claim_C8_header_extraction.1 [] respHW
    { name := "rid", property := "X-Req-Id", source := Source.responseHeader } "abc" []
    (by decide) rfl rfl

/-- C9: on a declaration of source `ResponseTime`, the stored value is the
elapsed time rounded to whole milliseconds rendered as a decimal integer
string: the rounded value is a multiple of one millisecond within half a
millisecond of the elapsed time, and 123.6 ms is stored as `124`. -/
theorem claim_C9_response_time_rounding :
    (∀ (c : Ctx) (resp : Response) (v : Variable),
        v.name.length ≠ 0 → v.source = Source.responseTime →
        extractVar c resp v =
          ⟨ctxAdd c v.name
              (goFormatInt (Int.tdiv (durationRound resp.timeElapsed 1000000) 1000000)),
            [createdVal v.name
              (goFormatInt (Int.tdiv (durationRound resp.timeElapsed 1000000) 1000000))],
            [Event.varAdded v.name
              (goFormatInt (Int.tdiv (durationRound resp.timeElapsed 1000000) 1000000))]⟩) ∧
    (∀ d : Int, 0 ≤ d →
        ∃ k, durationRound d 1000000 = 1000000 * k ∧
          (durationRound d 1000000 - d).natAbs * 2 ≤ 1000000) ∧
    durationRound 123600000 1000000 = 124000000 ∧
    extractVar [] respTW { name := "t", property := "", source := Source.responseTime } =
      ⟨[("t", "124")], [createdVal "t" "124"], [Event.varAdded "t" "124"]⟩ := by
  refine ⟨?_, ?_, rfl, rfl⟩
  · intro c resp v hnm hsrc
    obtain ⟨nm, prop, src⟩ := v
    simp only at hsrc hnm
    subst hsrc
    simp [extractVar, hnm]
  · intro d hd
    have h0 : 0 ≤ Int.tmod d 1000000 := Int.tmod_nonneg 1000000 hd
    have h1 : Int.tmod d 1000000 < 1000000 := Int.tmod_lt_of_pos d (by norm_num)
    have h2 : Int.tmod d 1000000 + 1000000 * Int.tdiv d 1000000 = d :=
      Int.tmod_add_tdiv d 1000000
    simp only [durationRound]
    rw [if_neg (by norm_num : ¬((1000000 : Int) ≤ 0)), if_neg (by omega : ¬(d < 0))]
    by_cases hc : Int.tmod d 1000000 + Int.tmod d 1000000 < 1000000
    · rw [if_pos hc]
      exact ⟨Int.tdiv d 1000000, by omega, by omega⟩
    · rw [if_neg hc]
      exact ⟨Int.tdiv d 1000000 + 1, by omega, by omega⟩

theorem claim_C9_response_time_rounding_inst :
    ∃ k, durationRound 123600000 1000000 = 1000000 * k ∧
      (durationRound 123600000 1000000 - 123600000).natAbs * 2 ≤ 1000000 :=
  claim_C9_response_time_rounding.2.1 123600000 (by decide)

end ApiScenario
